import Mathlib

/-!
Shallow embedding of the financial-dashboard data pipeline
(src/app/utils.py): the Loader `read_csv_to_df`, the Combiner
`combine_dataframes`, and the two Aggregators `agg_monthly` and
`agg_by_category_year`, together with proofs relating them to the
natural-language specification.

Modelling conventions:
- monetary cells are modelled as exact rationals (the original stores float64);
- a parsed CSV is a header list plus rows of text cells;
- pandas missing values (NaT dates, NaN years) are `Option`;
- the library calls `pd.to_datetime` / `pd.to_numeric` are modelled by
  executable best-effort parsers of the formats the claims exercise, with
  unparseable input mapped to `none` exactly as `errors="coerce"` does.
-/

namespace FinDash

/-- A calendar timestamp at day granularity (pandas `Timestamp`); ordering is
chronological, i.e. lexicographic on (year, month, day). -/
structure Timestamp where
  year : Nat
  month : Nat
  day : Nat
deriving DecidableEq

/-- Chronological order on timestamps as a Boolean test. -/
def tsLe (a b : Timestamp) : Bool :=
  decide (a.year < b.year) ||
    (a.year == b.year &&
      (decide (a.month < b.month) || (a.month == b.month && decide (a.day ≤ b.day))))

/-- Strict chronological order on timestamps: the comparison numpy applies to
datetime64 keys while sorting (no NaT value occurs among the rows the pipeline
sorts). -/
def tsLt (a b : Timestamp) : Bool :=
  decide (a.year < b.year) ||
    (a.year == b.year &&
      (decide (a.month < b.month) || (a.month == b.month && decide (a.day < b.day))))

/-- The ASCII whitespace characters stripped by Python `str.strip()`. -/
def isSpaceChar (c : Char) : Bool :=
  c == ' ' || c == '\t' || c == '\n' || c == '\r'

/-- Strip leading and trailing whitespace from a character list. -/
def trimChars (cs : List Char) : List Char :=
  ((cs.dropWhile isSpaceChar).reverse.dropWhile isSpaceChar).reverse

/-- Python `str.strip()` (and the `.strip()` of line 18) on ASCII text. -/
def strip (s : String) : String :=
  String.mk (trimChars s.data)

/-- Split a character list at every occurrence of a separator character. -/
def splitOnAux (sep : Char) : List Char → List Char → List (List Char)
  | [], acc => [acc.reverse]
  | c :: cs, acc =>
    if c == sep then acc.reverse :: splitOnAux sep cs []
    else splitOnAux sep cs (c :: acc)

/-- Split a character list on a separator (like Python `str.split(sep)`). -/
def splitChar (sep : Char) (cs : List Char) : List (List Char) :=
  splitOnAux sep cs []

/-- The number denoted by a list of decimal digit characters. -/
def digitsToNat (cs : List Char) : Nat :=
  cs.foldl (fun n c => n * 10 + (c.toNat - 48)) 0

/-- Modelled fragment of `pd.to_datetime(..., errors="coerce")` on one cell:
parses an ISO `YYYY-MM-DD` date, yielding `none` (pandas `NaT`) for anything
unparseable, so that a bad date degrades silently instead of raising. -/
def parseDate (s : String) : Option Timestamp :=
  match splitChar '-' (trimChars s.data) with
  | [ys, ms, ds] =>
    if ys ≠ [] ∧ ys.all Char.isDigit ∧ ms ≠ [] ∧ ms.all Char.isDigit ∧
        ds ≠ [] ∧ ds.all Char.isDigit then
      if 1 ≤ digitsToNat ys ∧ 1 ≤ digitsToNat ms ∧ digitsToNat ms ≤ 12 ∧
          1 ≤ digitsToNat ds ∧ digitsToNat ds ≤ 31 then
        some ⟨digitsToNat ys, digitsToNat ms, digitsToNat ds⟩
      else none
    else none
  | _ => none

/-- Helper for `strTitle`: walks the characters carrying whether the previous
character was a letter. -/
def titleAux : Bool → List Char → List Char
  | _, [] => []
  | prevAlpha, c :: cs =>
    (if prevAlpha then c.toLower else c.toUpper) :: titleAux c.isAlpha cs

/-- Python `str.title()` restricted to ASCII letters: the first letter of each
maximal run of letters is uppercased, the following letters lowercased. -/
def strTitle (s : String) : String :=
  String.mk (titleAux false s.data)

/-- Python `abs` on an exact rational. -/
def ratAbs (q : Rat) : Rat :=
  if q < 0 then -q else q

/-- Modelled fragment of `pd.to_numeric(..., errors="coerce")` on one cell:
parses an optionally signed decimal literal into an exact rational and yields
`none` (pandas NaN) otherwise. -/
def parseNumeric (s : String) : Option Rat :=
  let t := trimChars s.data
  let neg := t.head? == some '-'
  let u := if t.head? == some '-' || t.head? == some '+' then t.tail else t
  let val : Option Rat :=
    match splitChar '.' u with
    | [i] =>
      if i ≠ [] ∧ i.all Char.isDigit then some ((digitsToNat i : Nat) : Rat)
      else none
    | [i, f] =>
      if (i ≠ [] ∨ f ≠ []) ∧ i.all Char.isDigit ∧ f.all Char.isDigit then
        some (((digitsToNat i : Nat) : Rat) +
          ((digitsToNat f : Nat) : Rat) / ((10 : Rat) ^ f.length))
      else none
    | _ => none
  val.map (fun v => if neg then -v else v)

/-- Lines 36-37 of utils.py: `df["Type"].astype(str).str.strip().str.title()`
followed by replacing every value outside {"Income", "Expense"} with
"Expense". -/
def normalizeType (s : String) : String :=
  if strTitle (strip s) = "Income" ∨ strTitle (strip s) = "Expense" then
    strTitle (strip s)
  else "Expense"

/-- Line 40 of utils.py: `pd.to_numeric(df["Amount"], errors="coerce").fillna(0)`. -/
def coerceAmount (s : String) : Rat :=
  (parseNumeric s).getD 0

/-- One cleaned transaction record, i.e. one row of the DataFrame returned by
`read_csv_to_df`, with its columns Date, Category, Account, Type (field `ty`,
since `Type` is reserved in Lean), Amount, Year, Month, SignedAmount. -/
structure Rec where
  date : Option Timestamp
  category : String
  account : String
  ty : String
  amount : Rat
  year : Option Nat
  month : Option Nat
  signedAmount : Rat
deriving DecidableEq

/-- A raw tabular input as it reaches the body of `read_csv_to_df` after
`pd.read_csv`: header names plus rows of text cells. -/
structure RawTable where
  cols : List String
  rows : List (List String)
deriving DecidableEq

/-- The exceptions the embedded pipeline can raise.  `schemaError` models the
explicit `ValueError("Required column ... not found.")` of lines 28-33, which
the specification names `SchemaError`; `keyError` models a pandas `KeyError`
raised by accessing an absent column; `dateAssembleError` models the exception
`pd.to_datetime` raises on line 25 when the label "Date" ends up duplicated so
that `df["Date"]` is a two-column frame.  Header stripping on line 18 can
likewise duplicate the other labels: `attributeError` models the
`AttributeError` of line 36, where `df["Type"].astype(str).str` is reached
with a duplicated Type label so the `.str` accessor is requested of a frame;
`typeError` models the `TypeError` `pd.to_numeric` raises on line 40 when the
Amount label is duplicated and `df["Amount"]` is a frame. -/
inductive LoadError where
  | schemaError (col : String)
  | keyError (col : String)
  | dateAssembleError
  | attributeError (col : String)
  | typeError (col : String)
deriving DecidableEq

/-- Reading one cell of a row by column name (first matching label; absent
columns and short rows read as the empty cell, which every downstream coercion
treats like pandas treats NaN). -/
def cell (cols : List String) (row : List String) (c : String) : String :=
  match cols.indexOf? c with
  | some i => row.getD i ""
  | none => ""

/-- Lines 18-23 of utils.py: strip whitespace from every column name, then,
when no "Date" column resulted, rename the variants "date"/"DATE" to "Date". -/
def normColumns (cols : List String) : List String :=
  let cols1 := cols.map (fun c => strip c)
  if "Date" ∈ cols1 then cols1
  else cols1.map (fun c => if c = "date" ∨ c = "DATE" then "Date" else c)

/-- Lines 25-51 of `read_csv_to_df`, operating on normalized column names.
Line 25 reads `df["Date"]` before anything else, so a missing Date column
raises `KeyError` (not the SchemaError of lines 28-33) and a duplicated Date
label makes `pd.to_datetime` raise; then lines 28-33 check Category, Account,
Type, Amount in order, raising the `ValueError` (SchemaError) for the first
missing one except Account, which instead defaults every row to "Unknown";
next, a Type label duplicated by the stripping raises `AttributeError` at
line 36 and a duplicated Amount label raises `TypeError` at line 40, while
duplicated Category or Account labels raise nothing, since the loader never
applies a column method to them (the embedding reads the first occurrence);
finally each row is cleaned: best-effort date, normalized type, coerced
amount, derived Year/Month and SignedAmount
(`r["Amount"] if r["Type"] == "Income" else -abs(r["Amount"])`).
`cleanRow` is that per-row cleaning (lines 25, 31, 36-49). -/
def cleanRow (cols : List String) (row : List String) : Rec :=
  let date := parseDate (cell cols row "Date")
  let ty := normalizeType (cell cols row "Type")
  let amount := coerceAmount (cell cols row "Amount")
  { date := date
    category := cell cols row "Category"
    account := if "Account" ∈ cols then cell cols row "Account" else "Unknown"
    ty := ty
    amount := amount
    year := date.map Timestamp.year
    month := date.map Timestamp.month
    signedAmount := if ty = "Income" then amount else -(ratAbs amount) }

def loadNormed (cols : List String) (rows : List (List String)) :
    Except LoadError (List Rec) :=
  if "Date" ∈ cols then
    if 2 ≤ cols.count "Date" then .error .dateAssembleError
    else
      match ["Category", "Type", "Amount"].find? (fun c => !(cols.contains c)) with
      | some c => .error (.schemaError c)
      | none =>
        if 2 ≤ cols.count "Type" then .error (.attributeError "Type")
        else if 2 ≤ cols.count "Amount" then .error (.typeError "Amount")
        else .ok (rows.map (cleanRow cols))
  else .error (.keyError "Date")

/-- The Loader: `read_csv_to_df` of src/app/utils.py, lines 11-51. -/
def read_csv_to_df (t : RawTable) : Except LoadError (List Rec) :=
  loadNormed (normColumns t.cols) t.rows

/-- A pandas DataFrame as the pipeline passes it around: either the schemaless
`pd.DataFrame()` with no columns at all (what `combine_dataframes` returns for
an empty input list, line 56) or a frame carrying the record schema. -/
inductive Df where
  | empty0 : Df
  | table : List Rec → Df
deriving DecidableEq

/-- Lines 57-58 of `combine_dataframes`: concatenate the inputs in order
(`pd.concat(dfs, ignore_index=True)`) and drop every row with a null Date
(`combined[~combined["Date"].isna()]`). -/
def keptRows (dfs : List (List Rec)) : List Rec :=
  dfs.flatten.filter (fun r => r.date.isSome)

/-- The record order used by `sort_values("Date")`: order on the Date column
(after line 58 no null dates remain among the sorted rows). -/
def recLe (a b : Rec) : Bool :=
  tsLe (a.date.getD ⟨0, 0, 0⟩) (b.date.getD ⟨0, 0, 0⟩)

/-- The relation form of `recLe`. -/
def recLeP (a b : Rec) : Prop :=
  recLe a b = true

instance : DecidableRel recLeP :=
  fun a b => inferInstanceAs (Decidable (recLe a b = true))

instance : IsTotal Rec recLeP :=
  ⟨fun a b => by
    simp only [recLeP, recLe, tsLe, Bool.or_eq_true, Bool.and_eq_true,
      decide_eq_true_eq, beq_iff_eq]
    omega⟩

instance : IsTrans Rec recLeP :=
  ⟨fun a b c hab hbc => by
    simp only [recLeP, recLe, tsLe, Bool.or_eq_true, Bool.and_eq_true,
      decide_eq_true_eq, beq_iff_eq] at hab hbc ⊢
    omega⟩

/-- Boolean test that a record list is ascending on the Date column. -/
def isSortedByDate : List Rec → Bool
  | [] => true
  | [_] => true
  | a :: b :: t => recLe a b && isSortedByDate (b :: t)

/-- The Combiner `combine_dataframes` (lines 54-60) as an input/output relation,
decidably.
The empty input list returns the schemaless empty frame (line 56).  Otherwise
the code concatenates, drops null-Date rows, and calls
`combined.sort_values("Date", inplace=True)` with the default
`kind="quicksort"`; pandas documents only the mergesort/stable kinds as
stable.  This relation embeds the guarantee that contract provides — the
output is some permutation of the retained rows that is ascending on Date —
and the universal theorems about the Combiner are proved over every output
the contract allows, which includes the output the code realizes.  The
realized output itself is embedded separately below as the deterministic
function `combine_dataframes`, built on the numpy quicksort that the call
actually dispatches to. -/
def combineOk (dfs : List (List Rec)) (out : Df) : Bool :=
  if dfs.isEmpty then out == Df.empty0
  else
    match out with
    | Df.empty0 => false
    | Df.table l => l.isPerm (keptRows dfs) && isSortedByDate l

/-- Propositional form of `combineOk`: `out` is a possible result of
`combine_dataframes dfs`. -/
def combineRel (dfs : List (List Rec)) (out : Df) : Prop :=
  combineOk dfs out = true

instance (dfs : List (List Rec)) (out : Df) : Decidable (combineRel dfs out) :=
  inferInstanceAs (Decidable (combineOk dfs out = true))

/-! ### The realized sort of `sort_values("Date", kind="quicksort")`.

`DataFrame.sort_values` on the single Date column computes
`nargsort(column, kind="quicksort")`, which (with no nulls left after line
58) is `column.argsort(kind="quicksort")` on the datetime64 values, and then
takes the rows in that index order.  For datetime64 keys numpy dispatches
this to the generic indirect quicksort template `aquicksort_` of
npysort/quicksort.cpp on every platform — datetime64 is absent from the SIMD
dispatch tables because NaT needs comparator handling — so the realized
permutation is well defined and the following is its faithful translation:
an introsort over an index array, with median-of-three pivoting, Hoare
partitioning, a switch to insertion sort for segments of at most
`smallQuicksort` elements, an explicit segment stack that always receives
the larger half, and an indirect heapsort fallback once the recursion depth
budget `2 * log2 n` of a popped segment is exhausted.  The partition step
swaps equal keys across the pivot, so equal-Date rows are reordered as soon
as a segment is long enough to be partitioned at all. -/

/-- Index-array read (every access below is in bounds). -/
def idxGet (t : List Nat) (i : Nat) : Nat :=
  t.getD i 0

/-- Functional update of one position of an index array. -/
def idxSet : List Nat → Nat → Nat → List Nat
  | [], _, _ => []
  | _ :: xs, 0, v => v :: xs
  | x :: xs, i + 1, v => x :: idxSet xs i v

/-- Swap two positions of an index array. -/
def idxSwap (t : List Nat) (i j : Nat) : List Nat :=
  idxSet (idxSet t i (idxGet t j)) j (idxGet t i)

/-- The key the index at position `p` of the index array refers to,
`v[tosort[p]]` in the numpy source. -/
def keyAt (v : List Timestamp) (t : List Nat) (p : Nat) : Timestamp :=
  v.getD (idxGet t p) ⟨0, 0, 0⟩

/-- numpy `SMALL_QUICKSORT`: segments of at most this many elements are
finished by insertion sort. -/
def smallQuicksort : Nat := 15

/-- Siftdown loop shared by both phases of the indirect heapsort
`aheapsort_`: one-based heap positions over the segment starting at `pl`,
comparing against the saved key `vtmp`; returns the updated index array and
the hole position that the caller fills. -/
def heapSiftLoop (v : List Timestamp) (pl n : Nat) (vtmp : Timestamp) :
    Nat → Nat → Nat → List Nat → (List Nat × Nat)
  | 0, i, _, t => (t, i)
  | fuel + 1, i, j, t =>
    if j ≤ n then
      let j2 := if j < n && tsLt (keyAt v t (pl + j - 1)) (keyAt v t (pl + j)) then j + 1 else j
      if tsLt vtmp (keyAt v t (pl + j2 - 1)) then
        heapSiftLoop v pl n vtmp fuel j2 (j2 + j2)
          (idxSet t (pl + i - 1) (idxGet t (pl + j2 - 1)))
      else (t, i)
    else (t, i)

/-- One build-phase siftdown of `aheapsort_` from heap position `l`. -/
def heapSiftAt (v : List Timestamp) (pl n l : Nat) (t : List Nat) : List Nat :=
  let tmp := idxGet t (pl + l - 1)
  let r := heapSiftLoop v pl n (v.getD tmp ⟨0, 0, 0⟩) (n + 1) l (l + l) t
  idxSet r.1 (pl + r.2 - 1) tmp

/-- Heap construction phase of `aheapsort_`: siftdown from `n / 2` down to 1. -/
def heapBuild (v : List Timestamp) (pl n : Nat) : Nat → List Nat → List Nat
  | 0, t => t
  | l + 1, t => heapBuild v pl n l (heapSiftAt v pl n (l + 1) t)

/-- Extraction phase of `aheapsort_`: repeatedly move the root behind the
shrinking heap and siftdown the displaced index. -/
def heapExtract (v : List Timestamp) (pl : Nat) : Nat → Nat → List Nat → List Nat
  | 0, _, t => t
  | fuel + 1, n, t =>
    if n > 1 then
      let tmp := idxGet t (pl + n - 1)
      let t1 := idxSet t (pl + n - 1) (idxGet t pl)
      let n2 := n - 1
      let r := heapSiftLoop v pl n2 (v.getD tmp ⟨0, 0, 0⟩) (n2 + 1) 1 2 t1
      heapExtract v pl fuel n2 (idxSet r.1 (pl + r.2 - 1) tmp)
    else t

/-- numpy `aheapsort_`: indirect heapsort of the segment of `n` positions
starting at `pl`, the fallback of the introsort at exhausted depth budget. -/
def aheapsortIdx (v : List Timestamp) (pl n : Nat) (t : List Nat) : List Nat :=
  heapExtract v pl (n + 1) n (heapBuild v pl n (n >>> 1) t)

/-- The partition scan `do ++pi while (less(v[tosort[pi]], vp))`. -/
def scanUp (v : List Timestamp) (t : List Nat) (vp : Timestamp) : Nat → Nat → Nat
  | 0, pi => pi + 1
  | fuel + 1, pi =>
    if tsLt (keyAt v t (pi + 1)) vp then scanUp v t vp fuel (pi + 1) else pi + 1

/-- The partition scan `do --pj while (less(vp, v[tosort[pj]]))`. -/
def scanDown (v : List Timestamp) (t : List Nat) (vp : Timestamp) : Nat → Nat → Nat
  | 0, pj => pj - 1
  | fuel + 1, pj =>
    if tsLt vp (keyAt v t (pj - 1)) then scanDown v t vp fuel (pj - 1) else pj - 1

/-- The Hoare partition exchange loop of `aquicksort_`: scan from both ends
and swap until the scans cross; returns the updated index array and the
crossing position. -/
def partLoop (v : List Timestamp) (vp : Timestamp) :
    Nat → Nat → Nat → List Nat → (List Nat × Nat)
  | 0, pi, _, t => (t, pi)
  | fuel + 1, pi, pj, t =>
    let pi2 := scanUp v t vp (t.length + 1) pi
    let pj2 := scanDown v t vp (t.length + 1) pj
    if pi2 ≥ pj2 then (t, pi2)
    else partLoop v vp fuel pi2 pj2 (idxSwap t pi2 pj2)

/-- Inner shift loop of the indirect insertion sort of `aquicksort_`. -/
def insInner (v : List Timestamp) (pl : Nat) (vp : Timestamp) :
    Nat → Nat → List Nat → (List Nat × Nat)
  | 0, pj, t => (t, pj)
  | fuel + 1, pj, t =>
    if pj > pl && tsLt vp (keyAt v t (pj - 1)) then
      insInner v pl vp fuel (pj - 1) (idxSet t pj (idxGet t (pj - 1)))
    else (t, pj)

/-- Outer loop of the indirect insertion sort of `aquicksort_` over the
segment from `pl` to `pr`. -/
def insSortGo (v : List Timestamp) (pl pr : Nat) :
    Nat → Nat → List Nat → List Nat
  | 0, _, t => t
  | fuel + 1, pi, t =>
    if pi ≤ pr then
      let vi := idxGet t pi
      let vp := v.getD vi ⟨0, 0, 0⟩
      let r := insInner v pl vp (t.length + 1) pi t
      insSortGo v pl pr fuel (pi + 1) (idxSet r.1 r.2 vi)
    else t

/-- The indirect insertion sort finishing a small segment of `aquicksort_`. -/
def insSort (v : List Timestamp) (pl pr : Nat) (t : List Nat) : List Nat :=
  insSortGo v pl pr (t.length + 1) (pl + 1) t

/-- The driver loop of numpy `aquicksort_`.  State: the index array, the
current segment `[pl, pr]`, its remaining depth budget `cdepth`, and the
stack of postponed segments with their budgets.  The budget is examined when
a segment is taken up (`atTop`), exactly as the source examines it at the
top of its outer loop; a long segment is partitioned (median-of-three pivot
moved before `pr`, exchange scans, pivot swapped back to the crossing), the
larger half is pushed, and the smaller half continues; a short segment is
insertion-sorted and the next segment popped. -/
def qsLoop (v : List Timestamp) :
    Nat → Bool → List Nat → Nat → Nat → Int → List (Nat × Nat × Int) → List Nat
  | 0, _, t, _, _, _, _ => t
  | fuel + 1, atTop, t, pl, pr, cdepth, stack =>
    if atTop ∧ cdepth < 0 then
      let t2 := aheapsortIdx v pl (pr - pl + 1) t
      match stack with
      | [] => t2
      | (pl2, pr2, d2) :: rest => qsLoop v fuel true t2 pl2 pr2 d2 rest
    else if pr - pl > smallQuicksort then
      let pm := pl + ((pr - pl) >>> 1)
      let t1 := if tsLt (keyAt v t pm) (keyAt v t pl) then idxSwap t pm pl else t
      let t2 := if tsLt (keyAt v t1 pr) (keyAt v t1 pm) then idxSwap t1 pr pm else t1
      let t3 := if tsLt (keyAt v t2 pm) (keyAt v t2 pl) then idxSwap t2 pm pl else t2
      let vp := keyAt v t3 pm
      let t4 := idxSwap t3 pm (pr - 1)
      let r := partLoop v vp (t4.length + 1) pl (pr - 1) t4
      let t5 := idxSwap r.1 r.2 (pr - 1)
      let pi := r.2
      if pi - pl < pr - pi then
        qsLoop v fuel false t5 pl (pi - 1) (cdepth - 1) ((pi + 1, pr, cdepth - 1) :: stack)
      else
        qsLoop v fuel false t5 (pi + 1) pr (cdepth - 1) ((pl, pi - 1, cdepth - 1) :: stack)
    else
      let t2 := insSort v pl pr t
      match stack with
      | [] => t2
      | (pl2, pr2, d2) :: rest => qsLoop v fuel true t2 pl2 pr2 d2 rest

/-- Fueled base-2 logarithm (the fuel always suffices at the call below). -/
def msbAux : Nat → Nat → Nat
  | 0, _ => 0
  | fuel + 1, n => if 2 ≤ n then msbAux fuel (n / 2) + 1 else 0

/-- numpy `npy_get_msb`: the position of the highest set bit. -/
def npyGetMsb (n : Nat) : Nat :=
  msbAux n n

/-- numpy `argsort(kind="quicksort")` on a list of datetime keys: run the
introsort driver on the identity index array with depth budget
`2 * npy_get_msb(num)`.  The fuel bounds the loop iterations; one partition
or one pop consumes one unit, and at most `num` partitions and as many pops
can occur, so the fuel is never exhausted. -/
def npArgsortQuicksort (keys : List Timestamp) : List Nat :=
  let num := keys.length
  qsLoop keys (4 * num + 8) true (List.range num) 0 (num - 1)
    ((npyGetMsb num * 2 : Nat) : Int) []

/-- The realized `sort_values("Date")` of line 59: order the rows by the
argsort permutation of their datetime64 keys (callers pass lists with no
null Date, so the key default is never read). -/
def pandasSortValuesDate (l : List Rec) : List Rec :=
  (npArgsortQuicksort (l.map (fun r => r.date.getD ⟨0, 0, 0⟩))).map
    (fun i => l.getD i ⟨none, "", "", "", 0, none, none, 0⟩)

/-- The Combiner `combine_dataframes` (lines 54-60) as the deterministic
function the code
realizes: the schemaless empty frame for an empty input list, otherwise the
retained rows reordered by the realized quicksort.  Every output of this
function is admissible for `combineRel`; the converse direction is what the
default quicksort does not guarantee, its tie order being what it is. -/
def combine_dataframes (dfs : List (List Rec)) : Df :=
  if dfs.isEmpty then Df.empty0
  else Df.table (pandasSortValuesDate (keptRows dfs))

/-- Seventeen one-month Income records with identical Date and pairwise
distinct amounts: one more row than a quicksort segment may hold before it is
partitioned rather than insertion-sorted. -/
def c2row (i : Nat) : Rec :=
  ⟨some ⟨2024, 1, 5⟩, "", "Bank", "Income", (i : Rat), some 2024, some 1, (i : Rat)⟩

/-- The concrete tie-heavy upload refuting sort stability. -/
def c2rows : List Rec :=
  (List.range 17).map c2row

/-- One output row of `agg_monthly`: the group key `YearMonth` (a first-of-month
timestamp) and the three aggregated columns. -/
structure MonthlyRow where
  yearMonth : Timestamp
  income : Rat
  expense : Rat
  net : Rat
deriving DecidableEq

/-- Line 65: `df["Date"].dt.to_period("M")` — the (year, month) bucket of a
record, `none` (NaT) when the Date is null. -/
def monthKey (r : Rec) : Option (Nat × Nat) :=
  r.date.map (fun t => (t.year, t.month))

/-- Ascending order on (year, month) group keys, as `groupby(sort=True)`
emits them. -/
def keyLe (a b : Nat × Nat) : Bool :=
  decide (a.1 < b.1) || (a.1 == b.1 && decide (a.2 ≤ b.2))

/-- The relation form of `keyLe`. -/
def keyLeP (a b : Nat × Nat) : Prop :=
  keyLe a b = true

instance : DecidableRel keyLeP :=
  fun a b => inferInstanceAs (Decidable (keyLe a b = true))

instance : IsTotal (Nat × Nat) keyLeP :=
  ⟨fun a b => by
    simp only [keyLeP, keyLe, Bool.or_eq_true, Bool.and_eq_true,
      decide_eq_true_eq, beq_iff_eq]
    omega⟩

instance : IsTrans (Nat × Nat) keyLeP :=
  ⟨fun a b c hab hbc => by
    simp only [keyLeP, keyLe, Bool.or_eq_true, Bool.and_eq_true,
      decide_eq_true_eq, beq_iff_eq] at hab hbc ⊢
    omega⟩

/-- Lines 64-71 of `agg_monthly` on a schema-carrying frame: bucket each row by
`YearMonth`, group by that key (pandas `groupby` silently drops rows whose key
is NaT and emits the remaining group keys in ascending order), and aggregate
each group with the three lambdas
`Income = s[s > 0].sum()`, `Expense = -s[s < 0].sum()`, `Net = s.sum()`
over the SignedAmount column `s` of the group; `to_period("M").to_timestamp()`
makes the key the first-of-month timestamp.  The distinct keys are sorted by
an insertion sort: the keys are duplicate-free, so every ascending sort of
them is this same list. -/
def aggMonthlyCore (rows : List Rec) : List MonthlyRow :=
  let keys := ((rows.filterMap monthKey).dedup).insertionSort keyLeP
  keys.map (fun k =>
    let s := (rows.filter (fun r => monthKey r == some k)).map Rec.signedAmount
    { yearMonth := ⟨k.1, k.2, 1⟩
      income := (s.filter (fun x => decide (0 < x))).sum
      expense := -((s.filter (fun x => decide (x < 0))).sum)
      net := s.sum })

/-- The Monthly Aggregator `agg_monthly` (lines 63-72).  On the schemaless
empty frame line 65 evaluates `df["Date"]`, which raises `KeyError` for the
absent column. -/
def agg_monthly : Df → Except LoadError (List MonthlyRow)
  | Df.empty0 => .error (.keyError "Date")
  | Df.table rows => .ok (aggMonthlyCore rows)

/-- One output row of `agg_by_category_year`. -/
structure CatYearRow where
  year : Nat
  category : String
  total : Rat
deriving DecidableEq

/-- The (Year, Category) group key of a record; `none` when Year is NaN
(null Date), in which case `groupby` drops the row. -/
def cyKey (r : Rec) : Option (Nat × String) :=
  r.year.map (fun y => (y, r.category))

/-- Ascending order on (Year, Category) keys (numeric then lexicographic). -/
def cyLe (a b : Nat × String) : Bool :=
  decide (a.1 < b.1) || (a.1 == b.1 && (decide (a.2 < b.2) || a.2 == b.2))

/-- The relation form of `cyLe`. -/
def cyLeP (a b : Nat × String) : Prop :=
  cyLe a b = true

instance : DecidableRel cyLeP :=
  fun a b => inferInstanceAs (Decidable (cyLe a b = true))

/-- The Category×Year Aggregator `agg_by_category_year` (lines 75-81):
`df.groupby(["Year", "Category"]).agg(Total=("SignedAmount", "sum"))`.
On the schemaless empty frame the groupby raises `KeyError` for the absent
Year column. -/
def agg_by_category_year : Df → Except LoadError (List CatYearRow)
  | Df.empty0 => .error (.keyError "Year")
  | Df.table rows =>
    .ok ((((rows.filterMap cyKey).dedup).insertionSort cyLeP).map (fun k =>
      { year := k.1
        category := k.2
        total := ((rows.filter (fun r => cyKey r == some k)).map Rec.signedAmount).sum }))

deriving instance DecidableEq for Except

/-! ### Specification-side predicates, formalizing the words of the claims.
These follow the specification text, to be compared with the embedded code. -/

/-- Spec predicate (claim C1 as stated): the sign of SignedAmount matches Type
on every record: non-negative for Income, non-positive for Expense. -/
def specSignMatches (recs : List Rec) : Bool :=
  recs.all (fun r =>
    (!(r.ty == "Income") || decide (0 ≤ r.signedAmount)) &&
    (!(r.ty == "Expense") || decide (r.signedAmount ≤ 0)))

/-- Spec predicate (C1 amended, Expense half): Expense records always have
non-positive SignedAmount. -/
def specExpenseNonpos (recs : List Rec) : Bool :=
  recs.all (fun r => !(r.ty == "Expense") || decide (r.signedAmount ≤ 0))

/-- Spec predicate (C1 amended, Income half): the SignedAmount of an Income record
is the coerced Amount unchanged (so a negative input amount stays negative). -/
def specIncomeKeepsAmount (recs : List Rec) : Bool :=
  recs.all (fun r => !(r.ty == "Income") || r.signedAmount == r.amount)

/-- Spec predicate (claim C2 as stated, stability): for every Date value, the
output rows carrying that Date appear in exactly their pre-sort relative order,
i.e. as the equally-dated subsequence of the retained concatenated input. -/
def specTiesPreserved (dfs : List (List Rec)) (l : List Rec) : Bool :=
  ((keptRows dfs).map Rec.date).dedup.all (fun d =>
    l.filter (fun r => r.date == d) == (keptRows dfs).filter (fun r => r.date == d))

/-- Spec predicate (C2 amended): for every Date value the output carries the
same multiset of rows with that Date as the retained input, in some order. -/
def specDateMultisetsPreserved (dfs : List (List Rec)) (l : List Rec) : Bool :=
  ((keptRows dfs).map Rec.date).dedup.all (fun d =>
    (l.filter (fun r => r.date == d)).isPerm
      ((keptRows dfs).filter (fun r => r.date == d)))

/-- Whether a Loader result is the `SchemaError` of the specification (the explicit
`ValueError` of lines 28-33). -/
def isSchemaErr (e : Except LoadError (List Rec)) : Bool :=
  match e with
  | .error (.schemaError _) => true
  | _ => false

/-- Whether one of the three hard-required columns Category, Type, Amount is
absent from the normalized header. -/
def missingCTA (t : RawTable) : Bool :=
  !(["Category", "Type", "Amount"].all (fun c => (normColumns t.cols).contains c))

/-- Spec predicate (C9): the Type of every record is one of the two enum labels. -/
def specTypesNormalized (recs : List Rec) : Bool :=
  recs.all (fun r => r.ty == "Income" || r.ty == "Expense")

/-- Spec predicate (C8): no record has a null Date. -/
def allDatesSome (recs : List Rec) : Bool :=
  recs.all (fun r => r.date.isSome)

/-- The (year, month) pairs of the calendar months present in a record set
(a null-Date record belongs to no calendar month). -/
def presentMonths (rows : List Rec) : List (Nat × Nat) :=
  rows.filterMap monthKey

/-- The (year, month) a monthly output row stands for. -/
def rowMonth (m : MonthlyRow) : Nat × Nat :=
  (m.yearMonth.year, m.yearMonth.month)

/-- Spec predicate (C7, per-row contract): each monthly output row carries a
first-of-month timestamp, Income the sum of the positive SignedAmounts of its
month, Expense the negated (hence non-negative) sum of the negative ones, and
Net the sum over all rows of that month. -/
def specMonthlyRows (rows : List Rec) (out : List MonthlyRow) : Bool :=
  out.all (fun m =>
    let s := (rows.filter (fun r => monthKey r == some (rowMonth m))).map
      Rec.signedAmount
    m.yearMonth.day == 1 &&
    m.income == (s.filter (fun x => decide (0 < x))).sum &&
    m.expense == -((s.filter (fun x => decide (x < 0))).sum) &&
    decide (0 ≤ m.expense) &&
    m.net == s.sum)

/-- Two key lists with the same members (each a subset of the other). -/
def sameMembers (xs ys : List (Nat × Nat)) : Bool :=
  xs.all (fun k => decide (k ∈ ys)) && ys.all (fun k => decide (k ∈ xs))

/-! ### Order and sortedness lemmas -/

/-- A pairwise-ordered record list passes the consecutive-order Boolean test. -/
theorem isSortedByDate_of_pairwise :
    ∀ l : List Rec, l.Pairwise (fun a b => recLe a b = true) → isSortedByDate l = true
  | [], _ => rfl
  | [_], _ => rfl
  | a :: b :: t, h => by
    rcases List.pairwise_cons.mp h with ⟨h1, h2⟩
    rw [isSortedByDate]
    simp only [Bool.and_eq_true]
    exact ⟨h1 b (by simp), isSortedByDate_of_pairwise (b :: t) h2⟩

/-! ### Sum-splitting lemmas used for the conservation law -/

/-- A map-sum splits along a Boolean filter and its complement. -/
theorem sum_map_filter_split (p : Rec → Bool) (f : Rec → Rat) :
    ∀ rows : List Rec,
      ((rows.filter p).map f).sum + ((rows.filter (fun r => !(p r))).map f).sum
        = (rows.map f).sum
  | [] => by simp
  | r :: rows => by
    have ih := sum_map_filter_split p f rows
    cases h : p r with
    | true =>
      simp only [List.filter_cons, h, Bool.not_true, ite_true, ite_false,
        List.map_cons, List.sum_cons, Bool.false_eq_true]
      rw [← ih]; ring
    | false =>
      simp only [List.filter_cons, h, Bool.not_false, ite_true, ite_false,
        List.map_cons, List.sum_cons, Bool.false_eq_true]
      rw [← ih]; ring

/-- Summing each group of a partition by distinct month keys and then totalling
the groups gives the total over all rows, provided the key of every row is among
the listed keys. -/
theorem sum_over_groups (f : Rec → Rat) :
    ∀ (keys : List (Nat × Nat)) (rows : List Rec), keys.Nodup →
      (∀ r ∈ rows, ∃ k ∈ keys, monthKey r = some k) →
      (keys.map (fun k =>
        ((rows.filter (fun r => monthKey r == some k)).map f).sum)).sum
        = (rows.map f).sum
  | [], rows, _, hcov => by
    match rows with
    | [] => simp
    | r :: rest =>
      rcases hcov r (by simp) with ⟨k, hk, _⟩
      exact absurd hk (List.not_mem_nil k)
  | k :: ks, rows, hnd, hcov => by
    rcases List.nodup_cons.mp hnd with ⟨hknot, hnd2⟩
    have hcov2 : ∀ r ∈ rows.filter (fun r => !(monthKey r == some k)),
        ∃ k2 ∈ ks, monthKey r = some k2 := by
      intro r hr
      rcases List.mem_filter.mp hr with ⟨hrmem, hrne⟩
      rcases hcov r hrmem with ⟨k2, hk2, hkey⟩
      rcases List.mem_cons.mp hk2 with h | h
      · subst h
        simp [hkey] at hrne
      · exact ⟨k2, h, hkey⟩
    have ih := sum_over_groups f ks
      (rows.filter (fun r => !(monthKey r == some k))) hnd2 hcov2
    have hsame : ∀ k2 ∈ ks,
        (rows.filter (fun r => !(monthKey r == some k))).filter
            (fun r => monthKey r == some k2)
          = rows.filter (fun r => monthKey r == some k2) := by
      intro k2 hk2
      rw [List.filter_filter]
      apply List.filter_congr
      intro r _
      cases hp2 : (monthKey r == some k2) with
      | false => simp
      | true =>
        have hkeq : monthKey r = some k2 := beq_iff_eq.mp hp2
        have hkne : (monthKey r == some k) = false := by
          simp only [beq_eq_false_iff_ne, ne_eq, hkeq, Option.some.injEq]
          intro heq
          exact hknot (heq ▸ hk2)
        simp [hkne]
    calc ((k :: ks).map (fun k2 =>
            ((rows.filter (fun r => monthKey r == some k2)).map f).sum)).sum
        = ((rows.filter (fun r => monthKey r == some k)).map f).sum
            + (ks.map (fun k2 =>
                ((rows.filter (fun r => monthKey r == some k2)).map f).sum)).sum := by
          simp
      _ = ((rows.filter (fun r => monthKey r == some k)).map f).sum
            + ((rows.filter (fun r => !(monthKey r == some k))).map f).sum := by
          rw [← ih]
          congr 1
          apply congrArg List.sum
          apply List.map_congr_left
          intro k2 hk2
          rw [hsame k2 hk2]
      _ = (rows.map f).sum := sum_map_filter_split _ f rows
termination_by keys => keys.length

/-- A list of non-positive rationals has a non-positive sum. -/
theorem sum_nonpos_rat : ∀ l : List Rat, (∀ x ∈ l, x ≤ 0) → l.sum ≤ 0
  | [], _ => le_of_eq rfl
  | x :: l, h => by
    rw [List.sum_cons]
    have h1 := h x (by simp)
    have h2 := sum_nonpos_rat l (fun y hy => h y (by simp [hy]))
    linarith

/-! ### Structural lemmas about the Loader -/

/-- The result of a successful load is exactly the per-row cleaning of every
input row over the normalized columns. -/
theorem read_ok_shape (t : RawTable) (recs : List Rec)
    (h : read_csv_to_df t = .ok recs) :
    recs = t.rows.map (cleanRow (normColumns t.cols)) := by
  unfold read_csv_to_df loadNormed at h
  split at h
  · split at h
    · exact absurd h (by simp)
    · split at h
      · exact absurd h (by simp)
      · split at h
        · exact absurd h (by simp)
        · split at h
          · exact absurd h (by simp)
          · injection h with h2
            exact h2.symm
  · exact absurd h (by simp)

/-- Python `abs` is non-negative. -/
theorem ratAbs_nonneg (q : Rat) : 0 ≤ ratAbs q := by
  unfold ratAbs
  split
  · next h => linarith
  · next h => linarith [not_lt.mp h]

/-- Type normalization always lands in the two-label enum. -/
theorem normalizeType_cases (s : String) :
    normalizeType s = "Income" ∨ normalizeType s = "Expense" := by
  unfold normalizeType
  split
  · next h => exact h
  · exact Or.inr rfl

/-! ### Claim C1 -/

/-- Claim C1 as stated is false of the code: a row with Type "Income" and
Amount cell "-50" loads to a record with Type Income whose SignedAmount is
-50 < 0, because line 48 keeps the raw Amount for Income rows and applies
`-abs` only on the Expense branch. -/
theorem c1_counterexample :
    ¬ (∀ (t : RawTable) (recs : List Rec), read_csv_to_df t = .ok recs →
        specSignMatches recs = true) := by
  intro h
  have h2 := h ⟨["Date", "Category", "Account", "Type", "Amount"],
      [["2024-01-05", "Pay", "Bank", "Income", "-50"]]⟩
    ((read_csv_to_df ⟨["Date", "Category", "Account", "Type", "Amount"],
      [["2024-01-05", "Pay", "Bank", "Income", "-50"]]⟩).toOption.getD [])
    (by decide)
  revert h2
  decide

/-- Claim C1, amended as the counterexample forces: for every record produced
by the Loader, the SignedAmount of an Expense record is non-positive, while
that of an Income record equals its coerced Amount unchanged — so it is
non-negative exactly when the input amount was, and a negative Income amount
yields a negative SignedAmount. -/
theorem c1_theorem :
    ∀ (t : RawTable) (recs : List Rec), read_csv_to_df t = .ok recs →
      specExpenseNonpos recs = true ∧ specIncomeKeepsAmount recs = true := by
  intro t recs h
  rw [read_ok_shape t recs h]
  constructor
  · rw [specExpenseNonpos, List.all_eq_true]
    intro r hr
    rcases List.mem_map.mp hr with ⟨row, _, hrow⟩
    subst hrow
    rcases normalizeType_cases (cell (normColumns t.cols) row "Type") with hty | hty <;>
      simp [cleanRow, hty, neg_nonpos, ratAbs_nonneg]
  · rw [specIncomeKeepsAmount, List.all_eq_true]
    intro r hr
    rcases List.mem_map.mp hr with ⟨row, _, hrow⟩
    subst hrow
    rcases normalizeType_cases (cell (normColumns t.cols) row "Type") with hty | hty <;>
      simp [cleanRow, hty]

/-- Witness for C1: the amended theorem applied to a concrete upload with one
Expense row and one Income row. -/
theorem c1_witness :
    specExpenseNonpos ((read_csv_to_df ⟨["Date", "Category", "Account", "Type", "Amount"],
        [["2024-01-05", "Food", "Bank", "expense", "50"],
         ["2024-01-20", "Salary", "Bank", "INCOME", "2000"]]⟩).toOption.getD []) = true ∧
    specIncomeKeepsAmount ((read_csv_to_df ⟨["Date", "Category", "Account", "Type", "Amount"],
        [["2024-01-05", "Food", "Bank", "expense", "50"],
         ["2024-01-20", "Salary", "Bank", "INCOME", "2000"]]⟩).toOption.getD []) = true :=
  c1_theorem ⟨["Date", "Category", "Account", "Type", "Amount"],
      [["2024-01-05", "Food", "Bank", "expense", "50"],
       ["2024-01-20", "Salary", "Bank", "INCOME", "2000"]]⟩ _ (by decide)

/-! ### Claim C9 -/

/-- Claim C9: Type cells are trimmed, title-cased and mapped into
{Income, Expense} with everything unrecognized becoming Expense (e.g. "gift"),
title-cased recognized labels surviving (e.g. " inCOme " becomes Income), and
Amount cells failing numeric coercion become 0 (e.g. "abc") — all without the
Loader raising an error on such cells. -/
theorem c9_theorem :
    (∀ s, normalizeType s = "Income" ∨ normalizeType s = "Expense") ∧
    normalizeType "gift" = "Expense" ∧
    normalizeType " inCOme " = "Income" ∧
    coerceAmount "abc" = 0 ∧
    (∀ rows, (read_csv_to_df
      ⟨["Date", "Category", "Account", "Type", "Amount"], rows⟩).isOk = true) ∧
    (∀ (t : RawTable) (recs : List Rec), read_csv_to_df t = .ok recs →
      specTypesNormalized recs = true) := by
  refine ⟨normalizeType_cases, by decide, by decide, by decide, ?_, ?_⟩
  · intro rows
    rfl
  · intro t recs h
    rw [read_ok_shape t recs h]
    rw [specTypesNormalized, List.all_eq_true]
    intro r hr
    rcases List.mem_map.mp hr with ⟨row, _, hrow⟩
    subst hrow
    rcases normalizeType_cases (cell (normColumns t.cols) row "Type") with hty | hty <;>
      simp [cleanRow, hty]

/-- Witness for C9: the record-level conjunct applied to a concrete upload
carrying exactly the unrecognized cells of the claim. -/
theorem c9_witness :
    specTypesNormalized ((read_csv_to_df ⟨["Date", "Category", "Account", "Type", "Amount"],
        [["2024-01-05", "Other", "Bank", "gift", "abc"]]⟩).toOption.getD []) = true :=
  c9_theorem.2.2.2.2.2 ⟨["Date", "Category", "Account", "Type", "Amount"],
      [["2024-01-05", "Other", "Bank", "gift", "abc"]]⟩ _ (by decide)

/-! ### Claim C3 -/

/-- Claim C3 as stated is false of the code: on a table whose header is just
["Type", "Amount"], Category is absent, yet line 25 evaluates `df["Date"]`
before the schema check of lines 28-33 ever runs, so the Loader fails with a
pandas `KeyError` for the missing Date column and not with a `SchemaError`;
the stated equivalence fails at this input. -/
theorem c3_counterexample :
    ¬ (∀ t : RawTable, isSchemaErr (read_csv_to_df t) = missingCTA t) := by
  intro h
  have h2 := h ⟨["Type", "Amount"], []⟩
  revert h2
  decide

/-- Claim C3, amended as the counterexamples force: provided the normalized
header carries exactly one Date column (otherwise line 25 raises `KeyError`
or the duplicated-label error before any schema check), the Loader fails with
a `SchemaError` if and only if one of Category, Type, Amount is absent — the
duplicate-label failures of lines 36 and 40 raise `AttributeError` and
`TypeError`, never a `SchemaError`; and when the Type and Amount labels are
additionally unique and only Account is absent, it does not fail and every
output record gets Account = "Unknown". -/
theorem c3_theorem : ∀ t : RawTable, (normColumns t.cols).count "Date" = 1 →
    isSchemaErr (read_csv_to_df t) = missingCTA t ∧
    ((normColumns t.cols).count "Type" = 1 →
      (normColumns t.cols).count "Amount" = 1 →
      missingCTA t = false →
      (read_csv_to_df t).isOk = true ∧
      ("Account" ∉ normColumns t.cols →
        ((read_csv_to_df t).toOption.getD []).all
          (fun r => r.account == "Unknown") = true)) := by
  intro t hcount
  have hmem : "Date" ∈ normColumns t.cols :=
    List.count_pos_iff.mp (by omega)
  have hnot2 : ¬ 2 ≤ (normColumns t.cols).count "Date" := by omega
  unfold read_csv_to_df loadNormed
  rw [if_pos hmem, if_neg hnot2]
  rcases hfind : ["Category", "Type", "Amount"].find?
      (fun c => !((normColumns t.cols).contains c)) with _ | c
  · have hall : (["Category", "Type", "Amount"].all
        (fun c => (normColumns t.cols).contains c)) = true := by
      rw [List.all_eq_true]
      intro c hc
      have hnc := List.find?_eq_none.mp hfind c hc
      simpa using hnc
    have hmiss : missingCTA t = false := by
      rw [missingCTA, hall]
      rfl
    constructor
    · by_cases hT : 2 ≤ (normColumns t.cols).count "Type"
      · simp [isSchemaErr, hmiss, hT]
      · by_cases hA : 2 ≤ (normColumns t.cols).count "Amount"
        · simp [isSchemaErr, hmiss, hT, hA]
        · simp [isSchemaErr, hmiss, hT, hA]
    · intro hT hA _
      have hT2 : ¬ 2 ≤ (normColumns t.cols).count "Type" := by omega
      have hA2 : ¬ 2 ≤ (normColumns t.cols).count "Amount" := by omega
      rw [if_neg hT2, if_neg hA2]
      refine ⟨rfl, fun hacc => ?_⟩
      rw [List.all_eq_true]
      intro r hr
      simp only [Except.toOption, Option.getD] at hr
      rcases List.mem_map.mp hr with ⟨row, _, hrow⟩
      subst hrow
      simp [cleanRow, hacc]
  · have hc := List.find?_some hfind
    have hcmem := List.mem_of_find?_eq_some hfind
    have hmiss : missingCTA t = true := by
      simp only [missingCTA, Bool.not_eq_true', List.all_eq_false]
      exact ⟨c, hcmem, by simpa using hc⟩
    refine ⟨by simp [isSchemaErr, hmiss], fun _ _ hfalse => ?_⟩
    rw [hmiss] at hfalse
    simp at hfalse

/-- Witness for C3: the amended theorem applied to a concrete table that has
Date, Category, Type and Amount but no Account column. -/
theorem c3_witness :
    isSchemaErr (read_csv_to_df ⟨["Date", "Category", "Type", "Amount"],
        [["2024-01-05", "Food", "expense", "50"]]⟩)
      = missingCTA ⟨["Date", "Category", "Type", "Amount"],
        [["2024-01-05", "Food", "expense", "50"]]⟩ ∧
    ((normColumns ["Date", "Category", "Type", "Amount"]).count "Type" = 1 →
      (normColumns ["Date", "Category", "Type", "Amount"]).count "Amount" = 1 →
      missingCTA ⟨["Date", "Category", "Type", "Amount"],
        [["2024-01-05", "Food", "expense", "50"]]⟩ = false →
      (read_csv_to_df ⟨["Date", "Category", "Type", "Amount"],
        [["2024-01-05", "Food", "expense", "50"]]⟩).isOk = true ∧
      ("Account" ∉ normColumns ["Date", "Category", "Type", "Amount"] →
        ((read_csv_to_df ⟨["Date", "Category", "Type", "Amount"],
          [["2024-01-05", "Food", "expense", "50"]]⟩).toOption.getD []).all
            (fun r => r.account == "Unknown") = true)) :=
  c3_theorem ⟨["Date", "Category", "Type", "Amount"],
    [["2024-01-05", "Food", "expense", "50"]]⟩ (by decide)

/-! ### Structural lemmas about the Combiner -/

/-- A schema-carrying Combiner result is a Date-sorted permutation of the
retained (non-null-Date) concatenated rows. -/
theorem combineRel_table (dfs : List (List Rec)) (l : List Rec)
    (h : combineRel dfs (Df.table l)) :
    l.Perm (keptRows dfs) ∧ isSortedByDate l = true := by
  rw [combineRel, combineOk] at h
  by_cases he : dfs.isEmpty
  · rw [if_pos he] at h
    simp at h
  · rw [if_neg he] at h
    simp only [Bool.and_eq_true] at h
    exact ⟨List.isPerm_iff.mp h.1, h.2⟩

/-! ### Claim C4 -/

/-- Claim C4 as stated is false of the code: combining an empty input list
returns the schemaless `pd.DataFrame()` (line 56), and the Monthly Aggregator
applied to that result evaluates `df["Date"]` on line 65, which raises
`KeyError` for the absent column — an exception does propagate. -/
theorem c4_counterexample :
    ¬ (∀ out : Df, combineRel [] out → (agg_monthly out).isOk = true) := by
  intro h
  exact absurd (h Df.empty0 (by decide)) (by decide)

/-- Claim C4, amended as the counterexample forces: the Combiner always has a
result; both Aggregators return a result without raising on every record set
carrying the schema, and the Monthly Aggregator maps the empty record set to
the empty result; but on the schemaless empty frame produced by combining an
empty input list, the Monthly Aggregator raises `KeyError` (the dashboard
guards that case by stopping when the combined frame is empty). -/
theorem c4_theorem :
    (∀ dfs : List (List Rec), ∃ out, combineRel dfs out) ∧
    (∀ rows, (agg_monthly (Df.table rows)).isOk = true) ∧
    (∀ rows, (agg_by_category_year (Df.table rows)).isOk = true) ∧
    agg_monthly (Df.table []) = .ok [] ∧
    agg_monthly Df.empty0 = .error (.keyError "Date") := by
  refine ⟨?_, fun rows => rfl, fun rows => rfl, rfl, rfl⟩
  intro dfs
  match dfs with
  | [] => exact ⟨Df.empty0, by decide⟩
  | d :: ds =>
    refine ⟨Df.table ((keptRows (d :: ds)).insertionSort recLeP), ?_⟩
    rw [combineRel, combineOk]
    show ((((keptRows (d :: ds)).insertionSort recLeP).isPerm (keptRows (d :: ds))) &&
      isSortedByDate ((keptRows (d :: ds)).insertionSort recLeP)) = true
    rw [Bool.and_eq_true]
    refine ⟨List.isPerm_iff.mpr (List.perm_insertionSort recLeP _), ?_⟩
    exact isSortedByDate_of_pairwise _ (List.sorted_insertionSort recLeP _)

/-! ### Claim C8 -/

/-- Claim C8: every schema-carrying Combiner output is ascending on Date and
contains no null-Date row (line 58 removes them before the sort). -/
theorem c8_theorem : ∀ (dfs : List (List Rec)) (l : List Rec),
    combineRel dfs (Df.table l) →
    isSortedByDate l = true ∧ allDatesSome l = true := by
  intro dfs l h
  rcases combineRel_table dfs l h with ⟨hperm, hsort⟩
  refine ⟨hsort, ?_⟩
  rw [allDatesSome, List.all_eq_true]
  intro r hr
  have hrm : r ∈ keptRows dfs := hperm.mem_iff.mp hr
  exact (List.mem_filter.mp hrm).2

/-- Witness for C8: the theorem applied to two concrete uploads, one of which
carries a null-Date row that the Combiner drops. -/
theorem c8_witness :
    isSortedByDate
      [⟨some ⟨2024, 1, 5⟩, "Food", "Bank", "Expense", 50, some 2024, some 1, -50⟩,
       ⟨some ⟨2024, 2, 1⟩, "Pay", "Bank", "Income", 70, some 2024, some 2, 70⟩] = true ∧
    allDatesSome
      [⟨some ⟨2024, 1, 5⟩, "Food", "Bank", "Expense", 50, some 2024, some 1, -50⟩,
       ⟨some ⟨2024, 2, 1⟩, "Pay", "Bank", "Income", 70, some 2024, some 2, 70⟩] = true :=
  c8_theorem
    [[⟨some ⟨2024, 1, 5⟩, "Food", "Bank", "Expense", 50, some 2024, some 1, -50⟩,
      ⟨none, "Junk", "Bank", "Expense", 9, none, none, -9⟩],
     [⟨some ⟨2024, 2, 1⟩, "Pay", "Bank", "Income", 70, some 2024, some 2, 70⟩]]
    [⟨some ⟨2024, 1, 5⟩, "Food", "Bank", "Expense", 50, some 2024, some 1, -50⟩,
     ⟨some ⟨2024, 2, 1⟩, "Pay", "Bank", "Income", 70, some 2024, some 2, 70⟩]
    (by decide)

/-! ### Claim C2 -/

/-- Claim C2 as stated is false of the code: at seventeen equal-Date rows the
segment is long enough that the realized quicksort of `sort_values` runs one
partition pass rather than the stable small-array insertion sort, and that
pass swaps equal keys across the pivot (the pivot index is first moved before
`pr`, then the exchange scans swap the tied rows pairwise), so the Combiner
returns the rows in the order
0, 14, 13, 12, 11, 10, 9, 15, 8, 6, 5, 4, 3, 2, 1, 7, 16 — the pre-sort
relative order of the equal-Date rows is not preserved. -/
theorem c2_counterexample :
    ¬ (∀ (dfs : List (List Rec)) (l : List Rec),
        combine_dataframes dfs = Df.table l → specTiesPreserved dfs l = true) := by
  intro h
  have h2 := h [c2rows] (pandasSortValuesDate (keptRows [c2rows])) rfl
  revert h2
  decide

/-- At the tie-heavy input of the counterexample, the realized Combiner
output is among the outputs the sorting contract allows: the relational
embedding and the realized function agree there. -/
theorem combine_realized_meets_contract_at_ties :
    combineRel [c2rows] (combine_dataframes [c2rows]) := by
  decide

/-- Claim C2, amended as the counterexample forces: the Combiner sorts the
rows remaining after null-Date removal by Date ascending, and for every Date
value the output carries exactly the retained rows of that Date as a multiset;
but the relative order of equal-Date rows is not preserved in general — the
realized quicksort reorders ties once a segment is partitioned, as the
counterexample exhibits at seventeen rows — so only the sortedness and the
per-Date multisets remain, proved here for every output the sorting contract
allows, the realized one among them. -/
theorem c2_theorem : ∀ (dfs : List (List Rec)) (l : List Rec),
    combineRel dfs (Df.table l) →
    isSortedByDate l = true ∧ specDateMultisetsPreserved dfs l = true := by
  intro dfs l h
  rcases combineRel_table dfs l h with ⟨hperm, hsort⟩
  refine ⟨hsort, ?_⟩
  rw [specDateMultisetsPreserved, List.all_eq_true]
  intro d _
  exact List.isPerm_iff.mpr (hperm.filter _)

/-- Witness for C2: the amended theorem applied to a concrete input with an
equal-Date tie. -/
theorem c2_witness :
    isSortedByDate
      [⟨some ⟨2024, 1, 5⟩, "A", "Bank", "Expense", 5, some 2024, some 1, -5⟩,
       ⟨some ⟨2024, 1, 5⟩, "B", "Bank", "Expense", 7, some 2024, some 1, -7⟩] = true ∧
    specDateMultisetsPreserved
      [[⟨some ⟨2024, 1, 5⟩, "A", "Bank", "Expense", 5, some 2024, some 1, -5⟩,
        ⟨some ⟨2024, 1, 5⟩, "B", "Bank", "Expense", 7, some 2024, some 1, -7⟩]]
      [⟨some ⟨2024, 1, 5⟩, "A", "Bank", "Expense", 5, some 2024, some 1, -5⟩,
       ⟨some ⟨2024, 1, 5⟩, "B", "Bank", "Expense", 7, some 2024, some 1, -7⟩] = true :=
  c2_theorem
    [[⟨some ⟨2024, 1, 5⟩, "A", "Bank", "Expense", 5, some 2024, some 1, -5⟩,
      ⟨some ⟨2024, 1, 5⟩, "B", "Bank", "Expense", 7, some 2024, some 1, -7⟩]]
    [⟨some ⟨2024, 1, 5⟩, "A", "Bank", "Expense", 5, some 2024, some 1, -5⟩,
     ⟨some ⟨2024, 1, 5⟩, "B", "Bank", "Expense", 7, some 2024, some 1, -7⟩]
    (by decide)

/-! ### Claim C6 -/

/-- Claim C6: for any two successfully loaded inputs, combining them in either
order yields the same multiset of records — concatenation order only affects
the pre-sort order, and the retained rows are permutations of each other. -/
theorem c6_theorem : ∀ (t1 t2 : RawTable) (r1 r2 l12 l21 : List Rec),
    read_csv_to_df t1 = .ok r1 → read_csv_to_df t2 = .ok r2 →
    combineRel [r1, r2] (Df.table l12) → combineRel [r2, r1] (Df.table l21) →
    l12.Perm l21 := by
  intro t1 t2 r1 r2 l12 l21 _ _ h12 h21
  have hp12 := (combineRel_table _ _ h12).1
  have hp21 := (combineRel_table _ _ h21).1
  refine hp12.trans (List.Perm.trans ?_ hp21.symm)
  rw [keptRows, keptRows]
  apply List.Perm.filter
  simp only [List.flatten_cons, List.flatten_nil, List.append_nil]
  exact List.perm_append_comm

/-- Witness for C6: two one-row uploads combined in both orders. -/
theorem c6_witness :
    (((read_csv_to_df ⟨["Date", "Category", "Account", "Type", "Amount"],
          [["2024-01-05", "Food", "Bank", "expense", "50"]]⟩).toOption.getD []) ++
      ((read_csv_to_df ⟨["Date", "Category", "Account", "Type", "Amount"],
          [["2024-02-01", "Pay", "Bank", "income", "70"]]⟩).toOption.getD [])).Perm
    (((read_csv_to_df ⟨["Date", "Category", "Account", "Type", "Amount"],
          [["2024-01-05", "Food", "Bank", "expense", "50"]]⟩).toOption.getD []) ++
      ((read_csv_to_df ⟨["Date", "Category", "Account", "Type", "Amount"],
          [["2024-02-01", "Pay", "Bank", "income", "70"]]⟩).toOption.getD [])) :=
  c6_theorem
    ⟨["Date", "Category", "Account", "Type", "Amount"],
      [["2024-01-05", "Food", "Bank", "expense", "50"]]⟩
    ⟨["Date", "Category", "Account", "Type", "Amount"],
      [["2024-02-01", "Pay", "Bank", "income", "70"]]⟩
    ((read_csv_to_df ⟨["Date", "Category", "Account", "Type", "Amount"],
        [["2024-01-05", "Food", "Bank", "expense", "50"]]⟩).toOption.getD [])
    ((read_csv_to_df ⟨["Date", "Category", "Account", "Type", "Amount"],
        [["2024-02-01", "Pay", "Bank", "income", "70"]]⟩).toOption.getD [])
    (((read_csv_to_df ⟨["Date", "Category", "Account", "Type", "Amount"],
          [["2024-01-05", "Food", "Bank", "expense", "50"]]⟩).toOption.getD []) ++
      ((read_csv_to_df ⟨["Date", "Category", "Account", "Type", "Amount"],
          [["2024-02-01", "Pay", "Bank", "income", "70"]]⟩).toOption.getD []))
    (((read_csv_to_df ⟨["Date", "Category", "Account", "Type", "Amount"],
          [["2024-01-05", "Food", "Bank", "expense", "50"]]⟩).toOption.getD []) ++
      ((read_csv_to_df ⟨["Date", "Category", "Account", "Type", "Amount"],
          [["2024-02-01", "Pay", "Bank", "income", "70"]]⟩).toOption.getD []))
    (by decide) (by decide) (by decide) (by decide)

/-! ### Claim C5 -/

/-- Claim C5 as stated is false of the code: a record set containing a
null-Date row with nonzero SignedAmount loses that row in the groupby of line
66 (a row whose YearMonth key is NaT is silently dropped), so the Net total
over the output is 0 while the SignedAmount total over the input is -5. -/
theorem c5_counterexample :
    ¬ (∀ (rows : List Rec) (out : List MonthlyRow),
        agg_monthly (Df.table rows) = .ok out →
        (out.map MonthlyRow.net).sum = (rows.map Rec.signedAmount).sum) := by
  intro h
  have h2 := h [⟨none, "Pay", "Bank", "Expense", 5, none, none, -5⟩]
    (aggMonthlyCore [⟨none, "Pay", "Bank", "Expense", 5, none, none, -5⟩]) rfl
  rw [show aggMonthlyCore [⟨none, "Pay", "Bank", "Expense", 5, none, none, -5⟩]
      = [] from rfl] at h2
  simp only [List.map_nil, List.sum_nil, List.map_cons, List.sum_cons,
    add_zero] at h2
  exact absurd h2 (by norm_num)

/-- Claim C5, amended as the counterexample forces: for every record set all
of whose rows carry a non-null Date — as every Combiner output does — the sum
of the Net column over the Monthly Aggregator output equals the sum of
SignedAmount over the input rows (conservation); rows with a null Date are
silently excluded from the groupby. -/
theorem c5_theorem : ∀ (rows : List Rec) (out : List MonthlyRow),
    allDatesSome rows = true →
    agg_monthly (Df.table rows) = .ok out →
    (out.map MonthlyRow.net).sum = (rows.map Rec.signedAmount).sum := by
  intro rows out hdates hok
  have hout : aggMonthlyCore rows = out := by
    have h2 : Except.ok (ε := LoadError) (aggMonthlyCore rows) = .ok out := hok
    injection h2
  subst hout
  simp only [aggMonthlyCore, List.map_map]
  have hnd : ((rows.filterMap monthKey).dedup.insertionSort keyLeP).Nodup :=
    ((List.perm_insertionSort keyLeP _).nodup_iff).mpr (List.nodup_dedup _)
  have hcov : ∀ r ∈ rows,
      ∃ k ∈ (rows.filterMap monthKey).dedup.insertionSort keyLeP,
        monthKey r = some k := by
    intro r hr
    have hs : r.date.isSome = true := List.all_eq_true.mp hdates r hr
    rcases Option.isSome_iff_exists.mp hs with ⟨ts, hts⟩
    refine ⟨(ts.year, ts.month), ?_, by rw [monthKey, hts]; rfl⟩
    rw [List.mem_insertionSort, List.mem_dedup, List.mem_filterMap]
    exact ⟨r, hr, by rw [monthKey, hts]; rfl⟩
  exact sum_over_groups Rec.signedAmount _ rows hnd hcov

/-- Witness for C5: the amended theorem applied to three dated records across
two months. -/
theorem c5_witness :
    (((aggMonthlyCore
      [⟨some ⟨2024, 1, 5⟩, "Food", "Checking", "Expense", 50, some 2024, some 1, -50⟩,
       ⟨some ⟨2024, 1, 20⟩, "Salary", "Checking", "Income", 2000, some 2024, some 1, 2000⟩,
       ⟨some ⟨2024, 2, 1⟩, "Food", "Checking", "Expense", 30, some 2024, some 2, -30⟩]).map
        MonthlyRow.net).sum)
      = (([⟨some ⟨2024, 1, 5⟩, "Food", "Checking", "Expense", 50, some 2024, some 1, -50⟩,
       ⟨some ⟨2024, 1, 20⟩, "Salary", "Checking", "Income", 2000, some 2024, some 1, 2000⟩,
       ⟨some ⟨2024, 2, 1⟩, "Food", "Checking", "Expense", 30, some 2024, some 2, -30⟩] :
        List Rec).map Rec.signedAmount).sum :=
  c5_theorem
    [⟨some ⟨2024, 1, 5⟩, "Food", "Checking", "Expense", 50, some 2024, some 1, -50⟩,
     ⟨some ⟨2024, 1, 20⟩, "Salary", "Checking", "Income", 2000, some 2024, some 1, 2000⟩,
     ⟨some ⟨2024, 2, 1⟩, "Food", "Checking", "Expense", 30, some 2024, some 2, -30⟩]
    (aggMonthlyCore
      [⟨some ⟨2024, 1, 5⟩, "Food", "Checking", "Expense", 50, some 2024, some 1, -50⟩,
       ⟨some ⟨2024, 1, 20⟩, "Salary", "Checking", "Income", 2000, some 2024, some 1, 2000⟩,
       ⟨some ⟨2024, 2, 1⟩, "Food", "Checking", "Expense", 30, some 2024, some 2, -30⟩])
    (by decide) rfl

/-! ### Claim C7 -/

/-- Claim C7: the Monthly Aggregator emits exactly one row per calendar month
present in the data (no month synthesized, none repeated), in ascending
YearMonth order with first-of-month timestamps, where Income sums the positive
SignedAmounts of the month, Expense is the negated (non-negative) sum of the
negative ones, and Net sums them all. -/
theorem c7_theorem : ∀ (rows : List Rec) (out : List MonthlyRow),
    agg_monthly (Df.table rows) = .ok out →
    (out.map rowMonth).Nodup ∧
    List.Pairwise (fun a b => keyLe (rowMonth a) (rowMonth b) = true) out ∧
    sameMembers (out.map rowMonth) (presentMonths rows) = true ∧
    specMonthlyRows rows out = true := by
  intro rows out hok
  have hout : aggMonthlyCore rows = out := by
    have h2 : Except.ok (ε := LoadError) (aggMonthlyCore rows) = .ok out := hok
    injection h2
  subst hout
  have hmap : (aggMonthlyCore rows).map rowMonth
      = (rows.filterMap monthKey).dedup.insertionSort keyLeP := by
    simp only [aggMonthlyCore, List.map_map]
    exact List.map_id _
  refine ⟨?_, ?_, ?_, ?_⟩
  · rw [hmap]
    exact ((List.perm_insertionSort keyLeP _).nodup_iff).mpr (List.nodup_dedup _)
  · simp only [aggMonthlyCore]
    rw [List.pairwise_map]
    exact List.sorted_insertionSort keyLeP _
  · rw [sameMembers, Bool.and_eq_true, List.all_eq_true, List.all_eq_true]
    constructor
    · intro k hk
      rw [hmap, List.mem_insertionSort, List.mem_dedup] at hk
      exact decide_eq_true hk
    · intro k hk
      rw [decide_eq_true_eq, hmap, List.mem_insertionSort, List.mem_dedup]
      exact hk
  · rw [specMonthlyRows, List.all_eq_true]
    intro m hm
    simp only [aggMonthlyCore] at hm
    rcases List.mem_map.mp hm with ⟨k, _, hmk⟩
    subst hmk
    simp only [Bool.and_eq_true]
    refine ⟨⟨⟨⟨rfl, beq_iff_eq.mpr rfl⟩, beq_iff_eq.mpr rfl⟩, ?_⟩, beq_iff_eq.mpr rfl⟩
    apply decide_eq_true
    apply neg_nonneg.mpr
    apply sum_nonpos_rat
    intro x hx
    have hneg : decide (x < 0) = true := (List.mem_filter.mp hx).2
    exact le_of_lt (by simpa using hneg)

/-- Witness for C7: the theorem applied to the worked three-row example of the
specification (January expense 50, January income 2000, February expense 30). -/
theorem c7_witness :
    ((aggMonthlyCore
      [⟨some ⟨2024, 1, 5⟩, "Food", "Checking", "Expense", 50, some 2024, some 1, -50⟩,
       ⟨some ⟨2024, 1, 20⟩, "Salary", "Checking", "Income", 2000, some 2024, some 1, 2000⟩,
       ⟨some ⟨2024, 2, 1⟩, "Food", "Checking", "Expense", 30, some 2024, some 2, -30⟩]).map
        rowMonth).Nodup ∧
    List.Pairwise (fun a b => keyLe (rowMonth a) (rowMonth b) = true)
      (aggMonthlyCore
      [⟨some ⟨2024, 1, 5⟩, "Food", "Checking", "Expense", 50, some 2024, some 1, -50⟩,
       ⟨some ⟨2024, 1, 20⟩, "Salary", "Checking", "Income", 2000, some 2024, some 1, 2000⟩,
       ⟨some ⟨2024, 2, 1⟩, "Food", "Checking", "Expense", 30, some 2024, some 2, -30⟩]) ∧
    sameMembers
      ((aggMonthlyCore
      [⟨some ⟨2024, 1, 5⟩, "Food", "Checking", "Expense", 50, some 2024, some 1, -50⟩,
       ⟨some ⟨2024, 1, 20⟩, "Salary", "Checking", "Income", 2000, some 2024, some 1, 2000⟩,
       ⟨some ⟨2024, 2, 1⟩, "Food", "Checking", "Expense", 30, some 2024, some 2, -30⟩]).map
        rowMonth)
      (presentMonths
      [⟨some ⟨2024, 1, 5⟩, "Food", "Checking", "Expense", 50, some 2024, some 1, -50⟩,
       ⟨some ⟨2024, 1, 20⟩, "Salary", "Checking", "Income", 2000, some 2024, some 1, 2000⟩,
       ⟨some ⟨2024, 2, 1⟩, "Food", "Checking", "Expense", 30, some 2024, some 2, -30⟩]) = true ∧
    specMonthlyRows
      [⟨some ⟨2024, 1, 5⟩, "Food", "Checking", "Expense", 50, some 2024, some 1, -50⟩,
       ⟨some ⟨2024, 1, 20⟩, "Salary", "Checking", "Income", 2000, some 2024, some 1, 2000⟩,
       ⟨some ⟨2024, 2, 1⟩, "Food", "Checking", "Expense", 30, some 2024, some 2, -30⟩]
      (aggMonthlyCore
      [⟨some ⟨2024, 1, 5⟩, "Food", "Checking", "Expense", 50, some 2024, some 1, -50⟩,
       ⟨some ⟨2024, 1, 20⟩, "Salary", "Checking", "Income", 2000, some 2024, some 1, 2000⟩,
       ⟨some ⟨2024, 2, 1⟩, "Food", "Checking", "Expense", 30, some 2024, some 2, -30⟩]) = true :=
  c7_theorem
    [⟨some ⟨2024, 1, 5⟩, "Food", "Checking", "Expense", 50, some 2024, some 1, -50⟩,
     ⟨some ⟨2024, 1, 20⟩, "Salary", "Checking", "Income", 2000, some 2024, some 1, 2000⟩,
     ⟨some ⟨2024, 2, 1⟩, "Food", "Checking", "Expense", 30, some 2024, some 2, -30⟩]
    (aggMonthlyCore
      [⟨some ⟨2024, 1, 5⟩, "Food", "Checking", "Expense", 50, some 2024, some 1, -50⟩,
       ⟨some ⟨2024, 1, 20⟩, "Salary", "Checking", "Income", 2000, some 2024, some 1, 2000⟩,
       ⟨some ⟨2024, 2, 1⟩, "Food", "Checking", "Expense", 30, some 2024, some 2, -30⟩])
    rfl

/-! ### Claim C10 -/

/-- Claim C10: the Loader strips leading and trailing whitespace from every
column name before any matching (line 18), so a table whose headers carry
stray spaces — including around the required Amount column — loads exactly as
the table with exact headers does. -/
theorem c10_theorem : ∀ rows : List (List String),
    read_csv_to_df ⟨[" Date ", "Category", "Account", "Type", " Amount "], rows⟩
      = read_csv_to_df ⟨["Date", "Category", "Account", "Type", "Amount"], rows⟩ := by
  intro rows
  show loadNormed (normColumns [" Date ", "Category", "Account", "Type", " Amount "]) rows
      = loadNormed (normColumns ["Date", "Category", "Account", "Type", "Amount"]) rows
  rw [show normColumns [" Date ", "Category", "Account", "Type", " Amount "]
        = normColumns ["Date", "Category", "Account", "Type", "Amount"] from by decide]

end FinDash
